import Mathlib

/-!
Verification of the tag-normalization / tag-deduplication utilities and the
AI-analysis dispatcher of the bookmark-ai-server repository.

Strings are embedded as `List Char` (JS strings are sequences of code units;
all inputs of interest are ASCII).  Asynchronous, fallible operations are
embedded as `Except`-valued functions; the outcome of each external provider
call is an explicit `Except` parameter.  Similarity ratings, computed by the
`string-similarity` dependency in floating point, are embedded as exact
rationals (`ℚ`); every concrete rating appearing in a theorem below is far
from the 0.85 threshold, so the float/rational distinction is immaterial.
-/

namespace Bookmark

/-- JS whitespace characters relevant to `trim` (ASCII fragment). -/
def isWsChar (c : Char) : Bool := c == ' ' || c == '\t' || c == '\n' || c == '\r'

/-- `String.prototype.toLowerCase` on ASCII data. -/
def lowerL (s : List Char) : List Char := s.map Char.toLower

/-- `String.prototype.trim`: drop whitespace from both ends. -/
def trimL (s : List Char) : List Char :=
  ((s.dropWhile isWsChar).reverse.dropWhile isWsChar).reverse

/-- `tag.toLowerCase().trim()` as used by `normalizeTag`. -/
def lowerTrim (s : List Char) : List Char := trimL (lowerL s)

/-- `String.prototype.includes`: substring test. -/
def containsSub (needle : List Char) : List Char → Bool
  | [] => needle.isPrefixOf []
  | c :: rest => needle.isPrefixOf (c :: rest) || containsSub needle rest

/-- `PRESERVED_TERMS` from `src/models/Bookmark.js`: terms returned
lowercased-as-is by `normalizeTag`. -/
def PRESERVED_TERMS : List (List Char) :=
  [("aws").data, ("apis").data, ("dns").data, ("ios").data, ("css").data,
   ("sass").data, ("less").data, ("news").data, ("devops").data,
   ("kubernetes").data, ("tensorflow").data]

/-- One iteration of the `COMMON_VARIATIONS.prefixes` loop of `normalizeTag`:
`if (normalized.startsWith(prefix)) normalized = normalized.replace(prefix, '')`.
Since the pattern is known to start the string, `replace` removes the leading
occurrence. -/
def stripPrefixOne (pat s : List Char) : List Char :=
  if pat.isPrefixOf s then s.drop pat.length else s

/-- The prefix loop of `normalizeTag`, in `Object.entries` order:
`'the '`, `'a '`, `'an '`, each test applied to the current value. -/
def stripPrefixAll (s : List Char) : List Char :=
  stripPrefixOne (("an ").data) (stripPrefixOne (("a ").data) (stripPrefixOne (("the ").data) s))

/-- One iteration of the `COMMON_VARIATIONS.plurals` loop of `normalizeTag`:
strip `suf` (appending `rep`) when it is a proper suffix and the result keeps
at least 2 characters. -/
def pluralOne (suf rep s : List Char) : List Char :=
  if suf.isSuffixOf s ∧ suf.length < s.length then
    let singular := s.take (s.length - suf.length) ++ rep
    if 2 ≤ singular.length then singular else s
  else s

/-- The plural loop of `normalizeTag`, in `Object.entries` order:
`'s' → ''`, `'es' → ''`, `'ies' → 'y'`, each test applied to the current
(possibly already rewritten) value. -/
def pluralAll (s : List Char) : List Char :=
  pluralOne (("ies").data) (("y").data) (pluralOne (("es").data) [] (pluralOne (("s").data) [] s))

/-- `normalizeTag` from `src/models/Bookmark.js`: empty (falsy) input yields
the empty string; preserved terms are returned lowercased/trimmed as-is;
otherwise the prefix loop and then the plural loop run on the
lowercased/trimmed value. -/
def normalizeTag (tag : List Char) : List Char :=
  if tag = [] then []
  else if lowerTrim tag ∈ PRESERVED_TERMS then lowerTrim tag
  else pluralAll (stripPrefixAll (lowerTrim tag))

/-- The error message thrown by the `string-similarity` dependency when its
second argument is not a non-empty array. -/
def badArgumentsMsg : List Char :=
  ("Bad arguments: First argument should be a string, second should be an array of strings").data

/-- Consecutive character pairs, as built by `compareTwoStrings`. -/
def bigrams : List Char → List (Char × Char)
  | a :: b :: rest => (a, b) :: bigrams (b :: rest)
  | _ => []

/-- Multiset-intersection size of bigram lists: the second list is scanned,
consuming one available occurrence per hit, exactly as the counting map in
`compareTwoStrings`. -/
def interSize (avail xs : List (Char × Char)) : Nat :=
  (xs.foldl (fun acc b => if b ∈ acc.1 then (acc.1.erase b, acc.2 + 1) else acc) (avail, 0)).2

/-- `compareTwoStrings` of the `string-similarity` dependency (Dice
coefficient over character bigrams, whitespace removed). -/
def compareTwoStrings (first second : List Char) : ℚ :=
  let f := first.filter (fun c => !(isWsChar c))
  let s := second.filter (fun c => !(isWsChar c))
  if f = s then 1
  else if f.length < 2 ∨ s.length < 2 then 0
  else (2 * (interSize (bigrams f) (bigrams s)) : ℚ) / (((f.length + s.length - 2 : Nat) : ℚ))

/-- The running best match of `findBestMatch`: target string and its rating. -/
structure BestMatchResult where
  target : List Char
  rating : ℚ
deriving DecidableEq

/-- The scanning loop of `findBestMatch`: a later candidate replaces the
current best only on a strictly greater rating (first maximum wins). -/
def bestOf (main : List Char) (best : BestMatchResult) : List (List Char) → BestMatchResult
  | [] => best
  | t :: ts =>
    let r := compareTwoStrings main t
    if r > best.rating then bestOf main ⟨t, r⟩ ts else bestOf main best ts

/-- `findBestMatch` of the `string-similarity` dependency.  On an empty
target list the library's argument validation fails and it throws, embedded
here as `Except.error`. -/
def findBestMatch (main : List Char) : List (List Char) → Except (List Char) BestMatchResult
  | [] => .error badArgumentsMsg
  | t :: ts => .ok (bestOf main ⟨t, compareTwoStrings main t⟩ ts)

/-- The default similarity threshold `0.85` of `findSimilarTag`. -/
def defaultThreshold : ℚ := mkRat 17 20

/-- `findSimilarTag` from `src/models/Bookmark.js`: exact match after
normalization first, then the fuzzy best-match step. -/
def findSimilarTag (newTag : List Char) (existingTags : List (List Char))
    (similarityThreshold : ℚ) : Except (List Char) (Option (List Char)) :=
  match existingTags.find? (fun tag => normalizeTag tag == normalizeTag newTag) with
  | some exactMatch => .ok (some exactMatch)
  | none =>
    match findBestMatch (normalizeTag newTag) existingTags with
    | .error e => .error e
    | .ok bm =>
      .ok (if bm.rating ≥ similarityThreshold then some bm.target else none)

/-- `Set.prototype.add` on an insertion-ordered duplicate-free list. -/
def addSet (acc : List (List Char)) (x : List Char) : List (List Char) :=
  if x ∈ acc then acc else acc ++ [x]

/-- The loop of `processTags`, with the accumulated insertion-ordered set. -/
def processTagsAux (existingTags : List (List Char)) :
    List (List Char) → List (List Char) → Except (List Char) (List (List Char))
  | [], acc => .ok acc
  | tag :: rest, acc =>
    if normalizeTag tag = [] then processTagsAux existingTags rest acc
    else
      match findSimilarTag (normalizeTag tag) existingTags defaultThreshold with
      | .error e => .error e
      | .ok (some similarTag) => processTagsAux existingTags rest (addSet acc similarTag)
      | .ok none => processTagsAux existingTags rest (addSet acc (normalizeTag tag))

/-- `processTags` from `src/models/Bookmark.js`. -/
def processTags (newTags existingTags : List (List Char)) :
    Except (List Char) (List (List Char)) :=
  processTagsAux existingTags newTags []

instance {ε α : Type} [DecidableEq ε] [DecidableEq α] : DecidableEq (Except ε α) :=
  fun a b =>
    match a, b with
    | .error x, .error y =>
      if h : x = y then .isTrue (by rw [h]) else .isFalse (fun hc => h (Except.error.inj hc))
    | .ok x, .ok y =>
      if h : x = y then .isTrue (by rw [h]) else .isFalse (fun hc => h (Except.ok.inj hc))
    | .error _, .ok _ => .isFalse (fun hc => Except.noConfusion hc)
    | .ok _, .error _ => .isFalse (fun hc => Except.noConfusion hc)

/-- The bookmark category enumeration `['Article', 'Video', 'Research']`. -/
inductive Category where
  | Article
  | Video
  | Research
deriving DecidableEq

/-- The value object returned by every `analyzeContent` variant. -/
structure AnalysisResult where
  summary : List Char
  tags : List (List Char)
  category : Category
deriving DecidableEq

/-- The settled outcomes of the three generation sub-operations launched by a
provider's `analyzeContent` (`Promise.all` with a `.catch` on each member):
`.ok` is a fulfilled generation, `.error` a rejected one. -/
structure SubOutcomes where
  summaryOutcome : Except (List Char) (List Char)
  tagsOutcome : Except (List Char) (List (List Char))
  categoryOutcome : Except (List Char) Category
deriving DecidableEq

/-- The fallback summary used both by the per-call `.catch` on summary
generation and by the outer `catch` of the provider `analyzeContent`. -/
def summaryFailedMsg : List Char :=
  ("Summary generation failed. Please try again later.").data

/-- `analyzeContent` of `src/services/claude.js`: client construction throws
on a missing key (caught by the function's own `catch`, yielding the fully
defaulted object); otherwise the three settled sub-operation outcomes are
composed, each failure replaced by its own fixed fallback. -/
def claudeAnalyzeContent (userApiKey : List Char) (o : SubOutcomes) : AnalysisResult :=
  if userApiKey = [] then
    { summary := summaryFailedMsg, tags := [], category := .Article }
  else
    { summary := match o.summaryOutcome with | .ok s => s | .error _ => summaryFailedMsg
      tags := match o.tagsOutcome with | .ok t => t | .error _ => []
      category := match o.categoryOutcome with | .ok c => c | .error _ => .Article }

/-- `analyzeContent` of the OpenAI service (`src/services/openai.js`):
identical composition and fallbacks. -/
def openaiAnalyzeContent (userApiKey : List Char) (o : SubOutcomes) : AnalysisResult :=
  if userApiKey = [] then
    { summary := summaryFailedMsg, tags := [], category := .Article }
  else
    { summary := match o.summaryOutcome with | .ok s => s | .error _ => summaryFailedMsg
      tags := match o.tagsOutcome with | .ok t => t | .error _ => []
      category := match o.categoryOutcome with | .ok c => c | .error _ => .Article }

/-- A user record as consulted by the AI service dispatcher; `[]` stands for
a missing/empty (JS-falsy) field. -/
structure User where
  aiProvider : List Char
  openAiKey : List Char
  claudeKey : List Char
deriving DecidableEq

/-- The fully defaulted result built by the dispatcher's `catch` block:
`{summary: 'AI analysis failed: <msg>. Please try again later.', tags: [],
category: 'Article'}`. -/
def aiDefaultError (msg : List Char) : AnalysisResult :=
  { summary := ("AI analysis failed: ").data ++ msg ++ (". Please try again later.").data
    tags := []
    category := .Article }

/-- `analyzeContent` of the AI service dispatcher (`src/services/ai.js`):
validates provider selection and credentials, dispatches to the selected
provider service, and converts any thrown configuration error into the fully
defaulted result. -/
def aiAnalyzeContent (user : User) (o : SubOutcomes) : AnalysisResult :=
  if user.aiProvider = [] then
    aiDefaultError (("AI provider not specified").data)
  else if user.openAiKey = [] ∧ user.claudeKey = [] then
    aiDefaultError (("No API key found. Please add an API key in your account settings.").data)
  else if user.aiProvider = ("openai").data then
    if user.openAiKey = [] then
      aiDefaultError (("OpenAI API key is required. Please add it in your account settings.").data)
    else openaiAnalyzeContent user.openAiKey o
  else if user.aiProvider = ("claude").data then
    if user.claudeKey = [] then
      aiDefaultError (("Claude API key is required. Please add it in your account settings.").data)
    else claudeAnalyzeContent user.claudeKey o
  else
    aiDefaultError (("Invalid AI provider specified").data)

/-- The generic-term blocklist of the OpenAI `generateTags` filter. -/
def openaiGenericTerms : List (List Char) :=
  [("other").data, ("miscellaneous").data, ("general").data, ("misc").data,
   ("various").data, ("article").data, ("content").data]

/-- The generic-term blocklist of the Claude `generateTags` filter. -/
def claudeGenericTerms : List (List Char) :=
  [("other").data, ("miscellaneous").data, ("general").data, ("misc").data,
   ("various").data, ("article").data, ("content").data, ("video").data, ("youtube").data]

/-- The post-parse cleaning step of `generateTags` (both variants): lowercase
and trim each parsed tag, then keep the non-empty ones that are not on the
generic-term blocklist and are at most 50 characters long. -/
def cleanTags (genericTerms raw : List (List Char)) : List (List Char) :=
  (raw.map (fun tag => trimL (lowerL tag))).filter
    (fun tag => !(tag == []) && decide (0 < tag.length) &&
      !(genericTerms.contains (lowerL tag)) && decide (tag.length ≤ 50))

/-- The OpenAI variant of the tag filter. -/
def openaiCleanTags (raw : List (List Char)) : List (List Char) :=
  cleanTags openaiGenericTerms raw

/-- The Claude variant of the tag filter. -/
def claudeCleanTags (raw : List (List Char)) : List (List Char) :=
  cleanTags claudeGenericTerms raw

/-- The URL-based video pattern of the OpenAI `determineCategory`
(note the bare substring `'video'`). -/
def openaiVideoPattern (url : List Char) : Bool :=
  containsSub (("youtube.com").data) (lowerL url) ||
  containsSub (("vimeo.com").data) (lowerL url) ||
  containsSub (("dailymotion.com").data) (lowerL url) ||
  containsSub (("video").data) (lowerL url)

/-- The URL-based video pattern of the Claude `determineCategory`. -/
def claudeVideoPattern (url : List Char) : Bool :=
  containsSub (("youtube.com").data) (lowerL url) ||
  containsSub (("youtu.be").data) (lowerL url) ||
  containsSub (("vimeo.com").data) (lowerL url) ||
  containsSub (("dailymotion.com").data) (lowerL url)

/-- The URL-based research pattern shared by both `determineCategory`
variants. -/
def researchPattern (url : List Char) : Bool :=
  containsSub (("arxiv.org").data) (lowerL url) ||
  containsSub (("research").data) (lowerL url) ||
  containsSub (("paper").data) (lowerL url) ||
  containsSub (("doi.org").data) (lowerL url)

/-- Validation of the provider's category answer: trim it and keep it only
when it is literally one of the three category names, else `Article`; a
rejected provider call is also `Article` (the surrounding `catch`). -/
def categoryOfResponse (resp : Except (List Char) (List Char)) : Category :=
  match resp with
  | .error _ => .Article
  | .ok txt =>
    let c := trimL txt
    if c = ("Article").data then .Article
    else if c = ("Video").data then .Video
    else if c = ("Research").data then .Research
    else .Article

/-- `determineCategory` of the OpenAI service: URL quick checks first (video
then research), delegating to the provider only when neither matches. -/
def openaiDetermineCategory (url : List Char)
    (resp : Except (List Char) (List Char)) : Category :=
  if openaiVideoPattern url then .Video
  else if researchPattern url then .Research
  else categoryOfResponse resp

/-- `determineCategory` of the Claude service. -/
def claudeDetermineCategory (url : List Char)
    (resp : Except (List Char) (List Char)) : Category :=
  if claudeVideoPattern url then .Video
  else if researchPattern url then .Research
  else categoryOfResponse resp

/-- A provider chat request as shaped by the summary generators: the system
prompt, the user-message text, and the token cap. -/
structure ProviderRequest where
  system : List Char
  userContent : List Char
  maxTokens : Nat
deriving DecidableEq

/-- `generateSummary` of the OpenAI service sends
`content.substring(0, 1000)` as the user message. -/
def openaiGenerateSummaryRequest (content : List Char) : ProviderRequest :=
  { system := ("You are a helpful assistant that generates concise summaries of web content. Generate a brief, informative summary in 2-3 sentences.").data
    userContent := content.take 1000
    maxTokens := 150 }

/-- The YouTube test of the Claude service (`url.toLowerCase().includes`). -/
def isYouTubeUrl (url : List Char) : Bool :=
  containsSub (("youtube.com").data) (lowerL url) ||
  containsSub (("youtu.be").data) (lowerL url)

/-- `generateSummary` of the Claude service sends the whole `content` as the
user message (the source comments: use full content for better context). -/
def claudeGenerateSummaryRequest (url content : List Char) : ProviderRequest :=
  { system :=
      if isYouTubeUrl url then
        ("You are analyzing a YouTube video. Generate a concise 2-3 sentence summary that accurately captures the main points discussed in the video. Focus on the key topics, insights, and any significant conclusions or takeaways. Be specific and avoid generic descriptions.").data
      else
        ("You are a helpful assistant that generates concise summaries of web content. Generate a brief, informative summary in 2-3 sentences that captures the main points and key takeaways.").data
    userContent := content
    maxTokens := 150 }

/-! Claim theorems. -/

/-- C1: contrary to the claim, `findSimilarTag` called with an empty
existing-tag list does not short-circuit: the exact-match lookup finds
nothing and the fuzzy step unconditionally hands the empty list to the
similarity dependency's `findBestMatch`, whose argument validation throws.
This theorem evaluates the code at the failing input class: for every
candidate and threshold the call errors instead of returning no-match. -/
theorem findSimilarTag_empty_existing_throws (candidate : List Char) (threshold : ℚ) :
    findSimilarTag candidate [] threshold = .error badArgumentsMsg := rfl

/-- C6: contrary to the claim (and to the source's own inline comments
`classes -> class`, `technologies -> technology`), the plural rules are
applied sequentially in the order `'s'`, `'es'`, `'ies'` to the evolving
string, so the `'s'` rule fires first and the later rules no longer match:
`'technologies'` normalizes to `'technologie'` (not `'technology'`) and
`'classes'` to `'classe'` (not `'class'`). -/
theorem normalizeTag_plural_rules_sequential :
    normalizeTag (("technologies").data) = ("technologie").data ∧
    normalizeTag (("classes").data) = ("classe").data := by decide

/-- C9 counterexample: the Claude summary generator puts the entire content
into the provider request (here a 1001-character content, exceeding the
OpenAI variant's fixed 1000-character excerpt), so the request text is not a
bounded-length excerpt in both variants. -/
theorem claudeSummaryRequest_full_content :
    (claudeGenerateSummaryRequest (("https://example.com/a").data)
        (List.replicate 1001 'a')).userContent = List.replicate 1001 'a' ∧
    (List.replicate 1001 'a' : List Char).length = 1001 :=
  ⟨rfl, List.length_replicate 1001 'a'⟩

/-- C9 (amended): only the OpenAI variant bounds the summary input — its
request text is the at-most-1000-character prefix of the content — while the
Claude variant sends the full content as the user message. -/
theorem generateSummaryRequest_excerpt (content url : List Char) :
    (openaiGenerateSummaryRequest content).userContent.length ≤ 1000 ∧
    (openaiGenerateSummaryRequest content).userContent <+: content ∧
    (claudeGenerateSummaryRequest url content).userContent = content := by
  refine ⟨?_, ?_, rfl⟩
  · show (content.take 1000).length ≤ 1000
    simp [List.length_take]
  · show content.take 1000 <+: content
    exact List.take_prefix 1000 content

/-- C10: the category quick checks test substring containment on the whole
lowercased URL. In the OpenAI variant any URL containing `'video'` yields
`Video` for every possible provider response (hence without consulting the
provider); in both variants, when the variant's video pattern does not
match, any URL containing `'research'` or `'paper'` yields `Research` for
every possible provider response. -/
theorem determineCategory_substring_shortcircuit (url : List Char) :
    (containsSub (("video").data) (lowerL url) = true →
      ∀ resp, openaiDetermineCategory url resp = .Video) ∧
    (openaiVideoPattern url = false →
      (containsSub (("research").data) (lowerL url) ||
       containsSub (("paper").data) (lowerL url)) = true →
      ∀ resp, openaiDetermineCategory url resp = .Research) ∧
    (claudeVideoPattern url = false →
      (containsSub (("research").data) (lowerL url) ||
       containsSub (("paper").data) (lowerL url)) = true →
      ∀ resp, claudeDetermineCategory url resp = .Research) := by
  refine ⟨fun hv resp => ?_, fun hnv hr resp => ?_, fun hnv hr resp => ?_⟩
  · have hvp : openaiVideoPattern url = true := by
      unfold openaiVideoPattern
      rw [hv, Bool.or_true]
    unfold openaiDetermineCategory
    simp [hvp]
  · have hrp : researchPattern url = true := by
      unfold researchPattern
      rcases Bool.or_eq_true_iff.mp hr with h | h <;> rw [h] <;>
        simp only [Bool.or_true, Bool.true_or]
    unfold openaiDetermineCategory
    simp [hnv, hrp]
  · have hrp : researchPattern url = true := by
      unfold researchPattern
      rcases Bool.or_eq_true_iff.mp hr with h | h <;> rw [h] <;>
        simp only [Bool.or_true, Bool.true_or]
    unfold claudeDetermineCategory
    simp [hnv, hrp]

/-- C10 witness: `'/videogames'` in the path triggers `Video` in the OpenAI
variant; the host `newspaper.example.com` (containing `'paper'`) triggers
`Research` in both variants, whatever the provider outcome would be. -/
theorem determineCategory_substring_shortcircuit_witness :
    openaiDetermineCategory (("https://example.com/videogames").data) (.error []) = .Video ∧
    openaiDetermineCategory (("https://newspaper.example.com").data)
      (.ok (("Article").data)) = .Research ∧
    claudeDetermineCategory (("https://newspaper.example.com").data) (.error []) = .Research :=
  ⟨(determineCategory_substring_shortcircuit _).1 (by decide) _,
   (determineCategory_substring_shortcircuit _).2.1 (by decide) (by decide) _,
   (determineCategory_substring_shortcircuit _).2.2 (by decide) (by decide) _⟩

/-- C3: with a non-empty key, each provider `analyzeContent` composes the
three settled sub-operation outcomes so that exactly the failed one is
replaced by its fixed fallback (failed summary → fixed failure string,
failed tags → empty list, failed category → `Article`) while the other two
components keep the values their own sub-operations produced. -/
theorem analyzeContent_failure_isolation (userApiKey s : List Char)
    (tgs : List (List Char)) (c : Category) (e : List Char)
    (hkey : userApiKey ≠ []) :
    claudeAnalyzeContent userApiKey ⟨.error e, .ok tgs, .ok c⟩ = ⟨summaryFailedMsg, tgs, c⟩ ∧
    claudeAnalyzeContent userApiKey ⟨.ok s, .error e, .ok c⟩ = ⟨s, [], c⟩ ∧
    claudeAnalyzeContent userApiKey ⟨.ok s, .ok tgs, .error e⟩ = ⟨s, tgs, .Article⟩ ∧
    openaiAnalyzeContent userApiKey ⟨.error e, .ok tgs, .ok c⟩ = ⟨summaryFailedMsg, tgs, c⟩ ∧
    openaiAnalyzeContent userApiKey ⟨.ok s, .error e, .ok c⟩ = ⟨s, [], c⟩ ∧
    openaiAnalyzeContent userApiKey ⟨.ok s, .ok tgs, .error e⟩ = ⟨s, tgs, .Article⟩ := by
  simp [claudeAnalyzeContent, openaiAnalyzeContent, hkey]

/-- C3 witness: a failed tag generation with successful summary and category
yields exactly `tags = []` with the other two components intact. -/
theorem analyzeContent_failure_isolation_witness :
    claudeAnalyzeContent (("key").data)
        ⟨.ok (("sum").data), .error (("boom").data), .ok .Research⟩ =
      ⟨("sum").data, [], .Research⟩ :=
  (analyzeContent_failure_isolation (("key").data) (("sum").data) [("t").data]
    .Research (("boom").data) (by decide)).2.1

/-- C2: whenever the selected provider has no stored credential, or the
provider selection is outside `{openai, claude}` (including unset), the
dispatcher returns the fully defaulted object — an `'AI analysis failed: '`-
prefixed summary, empty tags, category `Article` — and the result does not
depend on any provider sub-operation outcome (no provider primitive is
consulted). -/
theorem aiAnalyzeContent_config_default (user : User)
    (h : (user.aiProvider = ("openai").data ∧ user.openAiKey = []) ∨
         (user.aiProvider = ("claude").data ∧ user.claudeKey = []) ∨
         (user.aiProvider ≠ ("openai").data ∧ user.aiProvider ≠ ("claude").data)) :
    ∃ msg, ∀ o : SubOutcomes, aiAnalyzeContent user o =
      { summary := ("AI analysis failed: ").data ++ msg ++ (". Please try again later.").data
        tags := []
        category := .Article } := by
  by_cases h1 : user.aiProvider = []
  · exact ⟨("AI provider not specified").data,
      fun o => by simp [aiAnalyzeContent, aiDefaultError, h1]⟩
  · by_cases h2 : user.openAiKey = [] ∧ user.claudeKey = []
    · exact ⟨("No API key found. Please add an API key in your account settings.").data,
        fun o => by simp [aiAnalyzeContent, aiDefaultError, h1, h2.1, h2.2]⟩
    · by_cases h3 : user.aiProvider = ("openai").data
      · have h4 : user.openAiKey = [] := by
          rcases h with ⟨_, hk⟩ | ⟨hp, _⟩ | ⟨hp, _⟩
          · exact hk
          · exact absurd (h3 ▸ hp : ("openai").data = ("claude").data) (by decide)
          · exact absurd h3 hp
        have h7 : ¬ user.claudeKey = [] := fun hc => h2 ⟨h4, hc⟩
        exact ⟨("OpenAI API key is required. Please add it in your account settings.").data,
          fun o => by simp [aiAnalyzeContent, aiDefaultError, h1, h3, h4, h7]⟩
      · by_cases h5 : user.aiProvider = ("claude").data
        · have h6 : user.claudeKey = [] := by
            rcases h with ⟨hp, _⟩ | ⟨_, hk⟩ | ⟨_, hp⟩
            · exact absurd hp h3
            · exact hk
            · exact absurd h5 hp
          have h8 : ¬ user.openAiKey = [] := fun ho => h2 ⟨ho, h6⟩
          exact ⟨("Claude API key is required. Please add it in your account settings.").data,
            fun o => by simp [aiAnalyzeContent, aiDefaultError, h1, h3, h5, h6, h8]⟩
        · exact ⟨("Invalid AI provider specified").data,
            fun o => by simp [aiAnalyzeContent, aiDefaultError, h1, h2, h3, h5]⟩

/-- C2 witness: a user with both keys present but an out-of-set provider
selection gets the fixed defaulted result for every provider outcome. -/
theorem aiAnalyzeContent_config_default_witness :
    ∃ msg, ∀ o : SubOutcomes,
      aiAnalyzeContent ⟨("gemini").data, ("k1").data, ("k2").data⟩ o =
        { summary := ("AI analysis failed: ").data ++ msg ++ (". Please try again later.").data
          tags := []
          category := .Article } :=
  aiAnalyzeContent_config_default ⟨("gemini").data, ("k1").data, ("k2").data⟩
    (Or.inr (Or.inr (by decide)))

/-- C5 counterexample: normalization is not idempotent — `'class'` (ending
in a double `'s'`) normalizes to `'clas'`, which normalizes further to
`'cla'`. -/
theorem normalizeTag_not_idempotent :
    normalizeTag (normalizeTag (("class").data)) ≠ normalizeTag (("class").data) := by decide

theorem stripPrefixOne_no_match (pat s : List Char) (h : pat.isPrefixOf s = false) :
    stripPrefixOne pat s = s := by
  simp [stripPrefixOne, h]

theorem pluralOne_no_suffix (suf rep s : List Char) (h : suf.isSuffixOf s = false) :
    pluralOne suf rep s = s := by
  simp [pluralOne, h]

theorem suffix_s_of_suffix_es (r : List Char)
    (h : (("es").data).isSuffixOf r = true) :
    (("s").data).isSuffixOf r = true := by
  rw [List.isSuffixOf_iff_suffix] at h ⊢
  exact List.IsSuffix.trans ⟨['e'], rfl⟩ h

theorem suffix_s_of_suffix_ies (r : List Char)
    (h : (("ies").data).isSuffixOf r = true) :
    (("s").data).isSuffixOf r = true := by
  rw [List.isSuffixOf_iff_suffix] at h ⊢
  exact List.IsSuffix.trans ⟨['i', 'e'], rfl⟩ h

/-- C5 (amended): normalization is idempotent exactly on tags whose
normalized form is already fully reduced — lowercase/trim-stable and either
a preserved term or free of a leading `'the '`/`'a '`/`'an '` and of a
trailing `'s'`.  In general `normalizeTag` is not idempotent (see the
counterexample `'class' → 'clas' → 'cla'`). -/
theorem normalizeTag_idempotent_when_reduced (t : List Char)
    (h1 : lowerTrim (normalizeTag t) = normalizeTag t)
    (h2 : normalizeTag t ∈ PRESERVED_TERMS ∨
          ((("the ").data).isPrefixOf (normalizeTag t) = false ∧
           (("a ").data).isPrefixOf (normalizeTag t) = false ∧
           (("an ").data).isPrefixOf (normalizeTag t) = false ∧
           (("s").data).isSuffixOf (normalizeTag t) = false)) :
    normalizeTag (normalizeTag t) = normalizeTag t := by
  by_cases hr : normalizeTag t = []
  · rw [hr]; rfl
  · conv_lhs => rw [normalizeTag]
    rw [if_neg hr, h1]
    by_cases hp : normalizeTag t ∈ PRESERVED_TERMS
    · rw [if_pos hp]
    · rw [if_neg hp]
      rcases h2 with h2 | ⟨ha, hb, hc, hs⟩
      · exact absurd h2 hp
      · have hes : (("es").data).isSuffixOf (normalizeTag t) = false := by
          cases hq : (("es").data).isSuffixOf (normalizeTag t) with
          | false => rfl
          | true => exact absurd (suffix_s_of_suffix_es _ hq) (by rw [hs]; decide)
        have hies : (("ies").data).isSuffixOf (normalizeTag t) = false := by
          cases hq : (("ies").data).isSuffixOf (normalizeTag t) with
          | false => rfl
          | true => exact absurd (suffix_s_of_suffix_ies _ hq) (by rw [hs]; decide)
        rw [stripPrefixAll, stripPrefixOne_no_match _ _ ha,
          stripPrefixOne_no_match _ _ hb, stripPrefixOne_no_match _ _ hc,
          pluralAll, pluralOne_no_suffix _ _ _ hs, pluralOne_no_suffix _ _ _ hes,
          pluralOne_no_suffix _ _ _ hies]

/-- C5 witness: `'Cats'` normalizes to `'cat'`, which is fully reduced, so a
second normalization changes nothing. -/
theorem normalizeTag_idempotent_when_reduced_witness :
    normalizeTag (normalizeTag (("Cats").data)) = normalizeTag (("Cats").data) :=
  normalizeTag_idempotent_when_reduced (("Cats").data) (by decide) (Or.inr (by decide))

theorem cleanTags_not_mem_generic (genericTerms raw : List (List Char))
    (hg : ∀ g ∈ genericTerms, lowerL g = g) (t : List Char)
    (ht : t ∈ cleanTags genericTerms raw) : t ∉ genericTerms := by
  intro hmem
  have hp := (List.mem_filter.mp ht).2
  simp only [Bool.and_eq_true, Bool.not_eq_true'] at hp
  have hc : genericTerms.contains (lowerL t) = false := by tauto
  rw [hg t hmem] at hc
  rw [List.contains, List.elem_eq_mem, decide_eq_false_iff_not] at hc
  exact hc hmem

/-- C8 counterexample: the AI tag `'articles'` passes the `generateTags`
filter (it is not itself blocklisted), but `processTags` — run against a
vocabulary containing no blocklisted term — normalizes it to the blocklisted
term `'article'`, which therefore appears in the pipeline's output. -/
theorem pipeline_blocklist_counterexample :
    openaiCleanTags [("articles").data] = [("articles").data] ∧
    processTags (openaiCleanTags [("articles").data]) [("z").data] =
      .ok [("article").data] ∧
    ("article").data ∈ openaiGenericTerms ∧
    (∀ e ∈ ([("z").data] : List (List Char)), e ∉ openaiGenericTerms) := by decide

/-- C8 (amended): the blocklist invariant holds at the `generateTags` stage —
no tag in the filter's output equals a term of that variant's generic-term
blocklist — but it is not preserved by `processTags`, whose normalization can
map a non-blocklisted tag onto a blocklisted one (see the counterexample
`'articles' → 'article'`). -/
theorem generateTags_filter_blocklist (raw : List (List Char)) (t : List Char) :
    (t ∈ openaiCleanTags raw → t ∉ openaiGenericTerms) ∧
    (t ∈ claudeCleanTags raw → t ∉ claudeGenericTerms) :=
  ⟨fun ht => cleanTags_not_mem_generic _ _ (by decide) t ht,
   fun ht => cleanTags_not_mem_generic _ _ (by decide) t ht⟩

/-- C8 witness: `'ai'` survives the OpenAI filter and is not blocklisted. -/
theorem generateTags_filter_blocklist_witness : ("ai").data ∉ openaiGenericTerms :=
  (generateTags_filter_blocklist [("ai").data] (("ai").data)).1 (by decide)

theorem addSet_mem_of_mem (acc : List (List Char)) (y x : List Char) (hx : x ∈ acc) :
    x ∈ addSet acc y := by
  by_cases hy : y ∈ acc <;> simp [addSet, hy, hx]

theorem mem_addSet_self (acc : List (List Char)) (y : List Char) : y ∈ addSet acc y := by
  by_cases hy : y ∈ acc <;> simp [addSet, hy]

theorem addSet_nodup (acc : List (List Char)) (y : List Char) (h : acc.Nodup) :
    (addSet acc y).Nodup := by
  by_cases hy : y ∈ acc
  · simpa [addSet, hy] using h
  · simp [addSet, hy, List.nodup_append, h]

theorem processTagsAux_mem_mono (E : List (List Char)) :
    ∀ (ts acc res : List (List Char)), processTagsAux E ts acc = .ok res →
      ∀ x ∈ acc, x ∈ res := by
  intro ts
  induction ts with
  | nil =>
    intro acc res h x hx
    simp only [processTagsAux] at h
    injection h with h2
    subst h2
    exact hx
  | cons tag rest ih =>
    intro acc res h x hx
    simp only [processTagsAux] at h
    by_cases hn : normalizeTag tag = []
    · rw [if_pos hn] at h
      exact ih _ _ h x hx
    · rw [if_neg hn] at h
      cases hfs : findSimilarTag (normalizeTag tag) E defaultThreshold with
      | error e =>
        rw [hfs] at h
        exact Except.noConfusion h
      | ok o =>
        rw [hfs] at h
        cases o with
        | some m => exact ih _ _ h x (addSet_mem_of_mem _ _ _ hx)
        | none => exact ih _ _ h x (addSet_mem_of_mem _ _ _ hx)

theorem processTagsAux_nodup (E : List (List Char)) :
    ∀ (ts acc res : List (List Char)), acc.Nodup →
      processTagsAux E ts acc = .ok res → res.Nodup := by
  intro ts
  induction ts with
  | nil =>
    intro acc res hnd h
    simp only [processTagsAux] at h
    injection h with h2
    subst h2
    exact hnd
  | cons tag rest ih =>
    intro acc res hnd h
    simp only [processTagsAux] at h
    by_cases hn : normalizeTag tag = []
    · rw [if_pos hn] at h
      exact ih _ _ hnd h
    · rw [if_neg hn] at h
      cases hfs : findSimilarTag (normalizeTag tag) E defaultThreshold with
      | error e =>
        rw [hfs] at h
        exact Except.noConfusion h
      | ok o =>
        rw [hfs] at h
        cases o with
        | some m => exact ih _ _ (addSet_nodup _ _ hnd) h
        | none => exact ih _ _ (addSet_nodup _ _ hnd) h

theorem processTagsAux_mem_match (E : List (List Char)) (t m : List Char)
    (hn : normalizeTag t ≠ [])
    (hm : findSimilarTag (normalizeTag t) E defaultThreshold = .ok (some m)) :
    ∀ (ts acc res : List (List Char)), processTagsAux E ts acc = .ok res →
      t ∈ ts → m ∈ res := by
  intro ts
  induction ts with
  | nil => intro acc res h ht; cases ht
  | cons tag rest ih =>
    intro acc res h ht
    simp only [processTagsAux] at h
    rcases List.mem_cons.mp ht with rfl | htl
    · rw [if_neg hn, hm] at h
      exact processTagsAux_mem_mono E rest _ res h m (mem_addSet_self _ _)
    · by_cases hn2 : normalizeTag tag = []
      · rw [if_pos hn2] at h
        exact ih _ _ h htl
      · rw [if_neg hn2] at h
        cases hfs : findSimilarTag (normalizeTag tag) E defaultThreshold with
        | error e =>
          rw [hfs] at h
          exact Except.noConfusion h
        | ok o =>
          rw [hfs] at h
          cases o with
          | some m2 => exact ih _ _ h htl
          | none => exact ih _ _ h htl

/-- C4: when the similarity lookup (as invoked by the `processTags` loop on
the normalized new tag) finds a matching existing tag `m`, the successful
`processTags` result contains `m` verbatim — the vocabulary's spelling, not
the new tag's normalized form — and the result never contains two identical
strings. -/
theorem processTags_match_verbatim_and_nodup
    (newTags existingTags : List (List Char)) (t m : List Char)
    (res : List (List Char))
    (hres : processTags newTags existingTags = .ok res)
    (ht : t ∈ newTags) (hn : normalizeTag t ≠ [])
    (hm : findSimilarTag (normalizeTag t) existingTags defaultThreshold = .ok (some m)) :
    m ∈ res ∧ res.Nodup :=
  ⟨processTagsAux_mem_match existingTags t m hn hm newTags [] res hres ht,
   processTagsAux_nodup existingTags newTags [] res List.nodup_nil hres⟩

/-- C4 witness: processing `'Images'` against the vocabulary `['image']`
finds the existing spelling `'image'` and returns it verbatim, in a
duplicate-free result. -/
theorem processTags_match_verbatim_and_nodup_witness :
    ("image").data ∈ [("image").data] ∧ ([("image").data] : List (List Char)).Nodup :=
  processTags_match_verbatim_and_nodup [("Images").data] [("image").data]
    (("Images").data) (("image").data) [("image").data]
    (by decide) (by decide) (by decide) (by decide)

theorem find?_normalized_self (T : List (List Char)) (t : List Char)
    (hall : ∀ e ∈ T, normalizeTag e = e) (ht : t ∈ T) :
    T.find? (fun e => normalizeTag e == t) = some t := by
  induction T with
  | nil => cases ht
  | cons a rest ih =>
    by_cases ha : a = t
    · subst ha
      have hpred : (normalizeTag a == a) = true := by
        simp [hall a (List.mem_cons_self a rest)]
      simp [List.find?_cons, hpred]
    · have hpred : (normalizeTag a == t) = false := by
        rw [hall a (List.mem_cons_self a rest)]
        exact beq_eq_false_iff_ne.mpr ha
      simp only [List.find?_cons, hpred]
      exact ih (fun e he => hall e (List.mem_cons_of_mem a he))
        ((List.mem_cons.mp ht).resolve_left (fun hte => ha hte.symm))

theorem findSimilarTag_fixed_self (T : List (List Char)) (t : List Char)
    (hall : ∀ e ∈ T, normalizeTag e = e) (ht : t ∈ T) :
    findSimilarTag t T defaultThreshold = .ok (some t) := by
  unfold findSimilarTag
  rw [hall t ht, find?_normalized_self T t hall ht]

theorem processTagsAux_fixed (T : List (List Char))
    (hall : ∀ e ∈ T, normalizeTag e = e ∧ e ≠ []) :
    ∀ (ts : List (List Char)), (∀ x ∈ ts, x ∈ T) →
      ∀ acc, processTagsAux T ts acc = .ok (ts.foldl addSet acc) := by
  intro ts
  induction ts with
  | nil => intro _ acc; rfl
  | cons t rest ih =>
    intro hsub acc
    have htT : t ∈ T := hsub t (List.mem_cons_self t rest)
    simp only [processTagsAux]
    rw [(hall t htT).1, if_neg (hall t htT).2,
      findSimilarTag_fixed_self T t (fun e he => (hall e he).1) htT,
      List.foldl_cons]
    exact ih (fun x hx => hsub x (List.mem_cons_of_mem t hx)) (addSet acc t)

theorem foldl_addSet_of_disjoint :
    ∀ (ts acc : List (List Char)), ts.Nodup → (∀ x ∈ ts, x ∉ acc) →
      ts.foldl addSet acc = acc ++ ts := by
  intro ts
  induction ts with
  | nil => intro acc _ _; simp
  | cons t rest ih =>
    intro acc hnd hdis
    have hadd : addSet acc t = acc ++ [t] := by
      simp [addSet, hdis t (List.mem_cons_self t rest)]
    have hdis2 : ∀ x ∈ rest, x ∉ acc ++ [t] := by
      intro x hx
      simp only [List.mem_append, List.mem_singleton]
      rintro (hxa | rfl)
      · exact hdis x (List.mem_cons_of_mem t hx) hxa
      · exact (List.nodup_cons.mp hnd).1 hx
    rw [List.foldl_cons, hadd, ih (acc ++ [t]) (List.nodup_cons.mp hnd).2 hdis2]
    simp

/-- C7 counterexample: `['image']` is itself an output of `processTags`
(first conjunct), yet re-processing it against a vocabulary that includes
all of it — `['images', 'image']` — returns `['images']`: the exact-match
lookup hits the earlier near-duplicate `'images'` first, so the result is
not the identity. -/
theorem processTags_reprocess_counterexample :
    processTags [("image").data] [("image").data] = .ok [("image").data] ∧
    processTags [("image").data] [("images").data, ("image").data] =
      .ok [("images").data] ∧
    [("images").data] ≠ [("image").data] := by decide

/-- C7 (amended): re-processing is the identity only in the restricted
setting where the vocabulary is exactly the processed set and every tag in
it is a non-empty fixed point of `normalizeTag`: for every duplicate-free
such `T`, `processTags T T = T`.  With a strictly larger vocabulary, or with
canonical tags that are not normalization fixed points, the identity fails
(see the counterexample). -/
theorem processTags_self_identity_of_fixed (T : List (List Char))
    (hnd : T.Nodup)
    (hall : ∀ t ∈ T, normalizeTag t = t ∧ t ≠ []) :
    processTags T T = .ok T := by
  rw [processTags, processTagsAux_fixed T hall T (fun x hx => hx) [],
    foldl_addSet_of_disjoint T [] hnd (by simp)]
  simp

/-- C7 witness: the duplicate-free fixed-point set `['cat']` re-processes to
itself. -/
theorem processTags_self_identity_of_fixed_witness :
    processTags [("cat").data] [("cat").data] = .ok [("cat").data] :=
  processTags_self_identity_of_fixed [("cat").data] (by decide) (by decide)

end Bookmark
